import Mathlib

/-!
Verification of the unicode-path image I/O utilities
(`modules/__init__.py`: `imread_unicode`, `imwrite_unicode`).

The two Python functions route image I/O through in-memory byte buffers:
the reader does `cv2.imdecode(np.fromfile(path, dtype=np.uint8), flags)`;
the writer splits the extension with `os.path.splitext`, defaults it to
".png", encodes with `cv2.imencode`, and, on encode success, persists the
buffer with `encoded_img.tofile(path)`.

Embedding choices:
  * raw file contents are lists of byte values (`Bytes`);
  * the file system is a partial map from path strings to file contents;
  * the external codec (cv2) is an abstract structure with pure
    `imencode` / `imdecode` fields, since the wrapper only ever calls it on
    in-memory buffers;
  * the byte-write primitive `tofile` is a parameter of the writer, so the
    theorems can quantify over arbitrary write outcomes (the source never
    inspects the outcome of `encoded_img.tofile(path)`);
  * the reader's byte-read primitive `np.fromfile` raises on a missing
    file, modelled with `Except`.
-/

namespace DeepLiveCam

/-- Raw file contents: a list of byte values (the `np.uint8` buffer). -/
abbrev Bytes := List Nat

/-- An in-memory image array: height × width × channels plus flat pixel
data, as produced/consumed by the cv2 codec boundary. -/
structure Image where
  height : Nat
  width : Nat
  channels : Nat
  data : List Nat
deriving DecidableEq, Repr

/-- The `.shape` of an image array (height, width, channels). -/
def Image.shape (img : Image) : Nat × Nat × Nat :=
  (img.height, img.width, img.channels)

/-- The external image codec (cv2), restricted to the two in-memory entry
points the wrapper calls: `imencode ext img params` returns the success
flag and the encoded buffer; `imdecode buf flags` returns the decoded
image or `none` (cv2's decode-failure sentinel). -/
structure Codec where
  imencode : String → Image → List Int → Bool × Bytes
  imdecode : Bytes → Int → Option Image

/-- The file system: maps a path to the file's bytes, `none` when no
readable file exists at the path. -/
abbrev FS := String → Option Bytes

/-- The low-level I/O failure raised by the byte-read primitive
(`np.fromfile` on a nonexistent or unreadable path). -/
inductive IOErr where
  | fileNotFound : String → IOErr
deriving DecidableEq, Repr

/-- `np.fromfile(path, dtype=np.uint8)`: read the file's raw bytes,
raising a low-level I/O error when the path is missing or unreadable. -/
def fromfile (fs : FS) (path : String) : Except IOErr Bytes :=
  match fs path with
  | none => Except.error (IOErr.fileNotFound path)
  | some buf => Except.ok buf

/-- `cv2.IMREAD_COLOR`, the reader's default decode mode. -/
def IMREAD_COLOR : Int := 1

/-- `imread_unicode(path, flags)`:
`return cv2.imdecode(np.fromfile(path, dtype=np.uint8), flags)`.
An error from the byte read propagates before the codec runs. -/
def imread_unicode (c : Codec) (fs : FS) (path : String) (flags : Int) :
    Except IOErr (Option Image) :=
  match fromfile fs path with
  | Except.error e => Except.error e
  | Except.ok buf => Except.ok (c.imdecode buf flags)

/-- CPython `str.rfind` for a single character: index of the last
occurrence, `-1` if absent (accumulator-passing scan). -/
def rfindAux (ch : Char) : List Char → Nat → Int → Int
  | [], _, acc => acc
  | x :: xs, i, acc => rfindAux ch xs (i + 1) (if x = ch then (i : Int) else acc)

/-- Index of the last occurrence of `ch` in `s`, or `-1`. -/
def rfind (s : List Char) (ch : Char) : Int :=
  rfindAux ch s 0 (-1)

/-- `os.path.splitext` (posix flavour, per CPython `genericpath._splitext`
with `sep = '/'` and `extsep = '.'`): split at the last dot of the final
component, except that a final component consisting of leading dots only
up to that last dot yields an empty extension. -/
def splitext (p : String) : String × String :=
  let l := p.data
  let sepIndex := rfind l '/'
  let dotIndex := rfind l '.'
  if sepIndex < dotIndex then
    let fi := (sepIndex + 1).toNat
    let di := dotIndex.toNat
    if ((l.drop fi).take (di - fi)).all (fun ch => ch == '.') then
      (p, "")
    else
      (String.mk (l.take di), String.mk (l.drop di))
  else
    (p, "")

/-- `params if params is not None else []`: the parameter list handed to
the encoder. -/
def paramsOrEmpty (params : Option (List Int)) : List Int :=
  match params with
  | none => []
  | some ps => ps

/-- `imwrite_unicode(path, img, params=None)`:
split the extension; if empty, set it to ".png" and append it to the
path; encode with the codec; on encode success invoke the byte-write
primitive `tofile` on the (possibly adjusted) path; return the encode
success flag. `tofile` is the `encoded_img.tofile(path)` primitive,
passed in so that theorems can range over arbitrary write behaviour —
the source never inspects its outcome. -/
def imwrite_unicode (c : Codec) (tofile : FS → String → Bytes → FS)
    (fs : FS) (path : String) (img : Image) (params : Option (List Int)) :
    Bool × FS :=
  let se := splitext path
  let ext := if se.2 = "" then ".png" else se.2
  let path2 := if se.2 = "" then path ++ ".png" else path
  let enc := c.imencode ext img (paramsOrEmpty params)
  let fs2 := if enc.1 then tofile fs path2 enc.2 else fs
  (enc.1, fs2)

/-- The real byte-write primitive: `buf.tofile(path)` creates or
overwrites the file at `path` with exactly the buffer's bytes. -/
def tofileReal (fs : FS) (path : String) (buf : Bytes) : FS :=
  fun q => if q = path then some buf else fs q

/-- The effective output path (spec glossary): the path actually used for
the file write, after optional ".png" defaulting. -/
def effectivePath (p : String) : String :=
  if (splitext p).2 = "" then p ++ ".png" else p

/-- The extension handed to the encoder, after optional ".png"
defaulting. -/
def effectiveExt (p : String) : String :=
  if (splitext p).2 = "" then ".png" else (splitext p).2

/-- The empty file system (no file exists anywhere). -/
def emptyFS : FS := fun _ => none

/-- The 10×10×3 all-zeros test image of `test_imwrite_unicode`. -/
def imgZeros : Image :=
  { height := 10, width := 10, channels := 3
    data := List.replicate 300 0 }

/-- A diagnostic codec: encoding always succeeds and the buffer records
the extension the encoder was handed (as character codes); decoding
always returns the failure sentinel. -/
def codecSpy : Codec where
  imencode := fun ext _img _ps => (true, ext.data.map Char.toNat)
  imdecode := fun _buf _flags => none

/-- A codec whose encoding always fails. -/
def codecFail : Codec where
  imencode := fun _ext _img _ps => (false, [])
  imdecode := fun _buf _flags => none

/-- A lossless toy codec: the buffer stores the shape followed by the
pixel data, and decoding recovers them exactly. -/
def codecShape : Codec where
  imencode := fun _ext img _ps =>
    (true, img.height :: img.width :: img.channels :: img.data)
  imdecode := fun buf _flags =>
    match buf with
    | h :: w :: ch :: d => some { height := h, width := w, channels := ch, data := d }
    | _ => none

/-- The external codec's round-trip contract: decoding a successfully
encoded buffer yields an image of the same shape. -/
def RoundTripShape (c : Codec) (flags : Int) : Prop :=
  ∀ ext img ps, (c.imencode ext img ps).1 = true →
    ∃ img2, c.imdecode (c.imencode ext img ps).2 flags = some img2 ∧
      img2.shape = img.shape

/- ## Helper lemmas -/

/-- Characterization of the writer: the encoder runs on the effective
extension and the defaulted parameter list, the byte write targets the
effective path and happens only on encode success. -/
lemma imwrite_eq (c : Codec) (t : FS → String → Bytes → FS) (fs : FS)
    (path : String) (img : Image) (params : Option (List Int)) :
    imwrite_unicode c t fs path img params =
      ((c.imencode (effectiveExt path) img (paramsOrEmpty params)).1,
       if (c.imencode (effectiveExt path) img (paramsOrEmpty params)).1
       then t fs (effectivePath path)
            (c.imencode (effectiveExt path) img (paramsOrEmpty params)).2
       else fs) := by
  unfold imwrite_unicode effectiveExt effectivePath
  by_cases h : (splitext path).2 = "" <;> simp [h]

/-- Appending ".png" always changes the path. -/
lemma self_ne_append_png (p : String) : p ≠ p ++ ".png" := by
  intro h
  have hd := congrArg String.data h
  simp at hd

/-- The toy codec `codecShape` satisfies the round-trip contract. -/
lemma codecShape_roundTripShape (flags : Int) : RoundTripShape codecShape flags := by
  intro ext img ps _h
  exact ⟨{ height := img.height, width := img.width, channels := img.channels,
           data := img.data }, rfl, rfl⟩

/- ## Claim theorems -/

/-- C1: for every path with no extension, `imwrite_unicode` appends
".png" to the path, and (when the encoder succeeds) the file it writes is
created at `p ++ ".png"`, not at `p`. -/
theorem imwrite_defaults_png_extension
    (c : Codec) (fs : FS) (p : String) (img : Image) (params : Option (List Int))
    (hext : (splitext p).2 = "")
    (henc : (c.imencode ".png" img (paramsOrEmpty params)).1 = true) :
    effectivePath p = p ++ ".png" ∧
    (imwrite_unicode c tofileReal fs p img params).2 (p ++ ".png")
        = some (c.imencode ".png" img (paramsOrEmpty params)).2 ∧
    (imwrite_unicode c tofileReal fs p img params).2 p = fs p := by
  have hp : effectivePath p = p ++ ".png" := by simp [effectivePath, hext]
  have he : effectiveExt p = ".png" := by simp [effectiveExt, hext]
  rw [imwrite_eq]
  refine ⟨hp, ?_, ?_⟩
  · simp [he, hp, henc, tofileReal]
  · simp [he, hp, henc, tofileReal, self_ne_append_png p]

/-- C1 witness: the test scenario path "テスト画像" has no extension and
`codecSpy` encodes successfully, so the write lands at
"テスト画像" ++ ".png" and the original path stays absent. -/
theorem imwrite_defaults_png_extension_witness :
    (splitext "テスト画像").2 = "" ∧
    (codecSpy.imencode ".png" imgZeros (paramsOrEmpty none)).1 = true ∧
    (effectivePath "テスト画像" = "テスト画像" ++ ".png" ∧
     (imwrite_unicode codecSpy tofileReal emptyFS "テスト画像" imgZeros none).2
         ("テスト画像" ++ ".png")
        = some (codecSpy.imencode ".png" imgZeros (paramsOrEmpty none)).2 ∧
     (imwrite_unicode codecSpy tofileReal emptyFS "テスト画像" imgZeros none).2
         "テスト画像" = emptyFS "テスト画像") :=
  ⟨by decide, rfl,
   imwrite_defaults_png_extension codecSpy emptyFS "テスト画像" imgZeros none
     (by decide) rfl⟩

/-- C2: the writer returns exactly the codec's encode-success flag, for
every path, image and parameter list, and the returned flag does not
depend on the byte-write primitive or the file-system state. -/
theorem imwrite_returns_encode_flag
    (c : Codec) (t t2 : FS → String → Bytes → FS) (fs fs2 : FS)
    (p : String) (img : Image) (params : Option (List Int)) :
    (imwrite_unicode c t fs p img params).1
        = (c.imencode (effectiveExt p) img (paramsOrEmpty params)).1 ∧
    (imwrite_unicode c t fs p img params).1
        = (imwrite_unicode c t2 fs2 p img params).1 := by
  rw [imwrite_eq, imwrite_eq]
  exact ⟨rfl, rfl⟩

/-- C3: for every path whose extension is non-empty, the writer uses the
path unchanged and the encoder is selected by that existing extension. -/
theorem imwrite_preserves_existing_extension
    (c : Codec) (t : FS → String → Bytes → FS) (fs : FS)
    (p : String) (img : Image) (params : Option (List Int))
    (h : (splitext p).2 ≠ "") :
    imwrite_unicode c t fs p img params =
      ((c.imencode (splitext p).2 img (paramsOrEmpty params)).1,
       if (c.imencode (splitext p).2 img (paramsOrEmpty params)).1
       then t fs p (c.imencode (splitext p).2 img (paramsOrEmpty params)).2
       else fs) := by
  rw [imwrite_eq]
  simp [effectiveExt, effectivePath, h]

/-- C3 witness: "a.png" keeps its extension, and the writer behaves as
the characterization states at that concrete input. -/
theorem imwrite_preserves_existing_extension_witness :
    (splitext "a.png").2 ≠ "" ∧
    imwrite_unicode codecSpy tofileReal emptyFS "a.png" imgZeros none =
      ((codecSpy.imencode (splitext "a.png").2 imgZeros (paramsOrEmpty none)).1,
       if (codecSpy.imencode (splitext "a.png").2 imgZeros (paramsOrEmpty none)).1
       then tofileReal emptyFS "a.png"
            (codecSpy.imencode (splitext "a.png").2 imgZeros (paramsOrEmpty none)).2
       else emptyFS) :=
  ⟨by decide,
   imwrite_preserves_existing_extension codecSpy tofileReal emptyFS "a.png"
     imgZeros none (by decide)⟩

/-- C4: when the encode step fails, the byte-write step is skipped — the
file system is returned untouched, whatever the write primitive would
have done — and the writer returns false. -/
theorem imwrite_skips_write_on_encode_failure
    (c : Codec) (t : FS → String → Bytes → FS) (fs : FS)
    (p : String) (img : Image) (params : Option (List Int))
    (h : (c.imencode (effectiveExt p) img (paramsOrEmpty params)).1 = false) :
    imwrite_unicode c t fs p img params = (false, fs) := by
  rw [imwrite_eq]
  simp [h]

/-- C4 witness: `codecFail` rejects every encoding, so writing "b.bmp"
leaves the empty file system untouched and returns false. -/
theorem imwrite_skips_write_on_encode_failure_witness :
    (codecFail.imencode (effectiveExt "b.bmp") imgZeros (paramsOrEmpty none)).1
        = false ∧
    imwrite_unicode codecFail tofileReal emptyFS "b.bmp" imgZeros none
        = (false, emptyFS) :=
  ⟨rfl,
   imwrite_skips_write_on_encode_failure codecFail tofileReal emptyFS "b.bmp"
     imgZeros none rfl⟩

/-- C5: on a nonexistent or unreadable path the reader propagates the raw
low-level I/O error of the byte-read primitive — the very error
`fromfile` raises — rather than catching it or returning the sentinel. -/
theorem imread_propagates_read_error
    (c : Codec) (fs : FS) (p : String) (flags : Int) (h : fs p = none) :
    imread_unicode c fs p flags = Except.error (IOErr.fileNotFound p) ∧
    ∀ e, fromfile fs p = Except.error e →
      imread_unicode c fs p flags = Except.error e := by
  constructor
  · unfold imread_unicode fromfile
    simp [h]
  · intro e he
    unfold imread_unicode
    rw [he]

/-- C5 witness: reading "missing.png" from the empty file system yields
the file-not-found error, identical to the one `fromfile` raises. -/
theorem imread_propagates_read_error_witness :
    emptyFS "missing.png" = none ∧
    (imread_unicode codecSpy emptyFS "missing.png" IMREAD_COLOR
        = Except.error (IOErr.fileNotFound "missing.png") ∧
     ∀ e, fromfile emptyFS "missing.png" = Except.error e →
       imread_unicode codecSpy emptyFS "missing.png" IMREAD_COLOR
          = Except.error e) :=
  ⟨rfl, imread_propagates_read_error codecSpy emptyFS "missing.png" IMREAD_COLOR rfl⟩

/-- C6: on a readable file whose bytes the codec cannot decode, the
reader returns the codec's failure sentinel (`none`) inside a normal
(non-error) result — no exception is raised. -/
theorem imread_sentinel_on_invalid_bytes
    (c : Codec) (fs : FS) (p : String) (flags : Int) (buf : Bytes)
    (h1 : fs p = some buf) (h2 : c.imdecode buf flags = none) :
    imread_unicode c fs p flags = Except.ok none := by
  unfold imread_unicode fromfile
  rw [h1]
  simp [h2]

/-- C6 witness: a file holding the single byte 9 exists, `codecSpy`
cannot decode it, and the reader returns the sentinel without raising. -/
theorem imread_sentinel_on_invalid_bytes_witness :
    tofileReal emptyFS "f.png" [9] "f.png" = some [9] ∧
    codecSpy.imdecode [9] IMREAD_COLOR = none ∧
    imread_unicode codecSpy (tofileReal emptyFS "f.png" [9]) "f.png" IMREAD_COLOR
        = Except.ok none :=
  ⟨rfl, rfl,
   imread_sentinel_on_invalid_bytes codecSpy (tofileReal emptyFS "f.png" [9])
     "f.png" IMREAD_COLOR [9] rfl rfl⟩

/-- C7: round-trip — for a codec satisfying the round-trip shape
contract, a successful `imwrite_unicode p img` followed by
`imread_unicode` on the effective path yields an image of the same
shape as `img`, for every path (non-ASCII included). -/
theorem write_read_roundtrip_shape
    (c : Codec) (fs : FS) (p : String) (img : Image)
    (params : Option (List Int)) (flags : Int)
    (hc : RoundTripShape c flags)
    (hw : (imwrite_unicode c tofileReal fs p img params).1 = true) :
    ∃ img2,
      imread_unicode c (imwrite_unicode c tofileReal fs p img params).2
          (effectivePath p) flags
        = Except.ok (some img2) ∧ img2.shape = img.shape := by
  rw [imwrite_eq] at hw ⊢
  simp only at hw
  obtain ⟨img2, hdec, hsh⟩ := hc (effectiveExt p) img (paramsOrEmpty params) hw
  refine ⟨img2, ?_, hsh⟩
  unfold imread_unicode fromfile
  simp [hw, tofileReal, hdec]

/-- C7 witness: with the lossless toy codec, writing the 10×10×3 zero
image to the non-ASCII path "テスト画像" and reading the effective path
back recovers an image of shape (10, 10, 3). -/
theorem write_read_roundtrip_shape_witness :
    RoundTripShape codecShape IMREAD_COLOR ∧
    (imwrite_unicode codecShape tofileReal emptyFS "テスト画像" imgZeros none).1
        = true ∧
    ∃ img2,
      imread_unicode codecShape
          (imwrite_unicode codecShape tofileReal emptyFS "テスト画像" imgZeros none).2
          (effectivePath "テスト画像") IMREAD_COLOR
        = Except.ok (some img2) ∧ img2.shape = imgZeros.shape :=
  ⟨codecShape_roundTripShape IMREAD_COLOR, rfl,
   write_read_roundtrip_shape codecShape emptyFS "テスト画像" imgZeros none
     IMREAD_COLOR (codecShape_roundTripShape IMREAD_COLOR) rfl⟩

/-- C8: the defaulted `params` is the empty list — passing `none` is
indistinguishable from passing `some []` — and a supplied list reaches
the encoder unmodified: the writer's whole behaviour depends on the
codec only through its value at exactly that list. -/
theorem imwrite_params_default_and_passthrough
    (c c2 : Codec) (t : FS → String → Bytes → FS) (fs : FS)
    (p : String) (img : Image) (l : List Int) :
    imwrite_unicode c t fs p img none = imwrite_unicode c t fs p img (some []) ∧
    (c.imencode (effectiveExt p) img l = c2.imencode (effectiveExt p) img l →
      imwrite_unicode c t fs p img (some l)
        = imwrite_unicode c2 t fs p img (some l)) := by
  constructor
  · rfl
  · intro h
    rw [imwrite_eq, imwrite_eq]
    simp only [paramsOrEmpty, h]

/-- C8 witness: at the concrete path "a", `none` and `some []` coincide,
and the pass-through instance holds for `codecSpy` against itself on the
list [1, 2]. -/
theorem imwrite_params_default_and_passthrough_witness :
    imwrite_unicode codecSpy tofileReal emptyFS "a" imgZeros none
        = imwrite_unicode codecSpy tofileReal emptyFS "a" imgZeros (some []) ∧
    imwrite_unicode codecSpy tofileReal emptyFS "a" imgZeros (some [1, 2])
        = imwrite_unicode codecSpy tofileReal emptyFS "a" imgZeros (some [1, 2]) :=
  ⟨(imwrite_params_default_and_passthrough codecSpy codecSpy tofileReal emptyFS
      "a" imgZeros [1, 2]).1,
   (imwrite_params_default_and_passthrough codecSpy codecSpy tofileReal emptyFS
      "a" imgZeros [1, 2]).2 rfl⟩

/-- C9: frame and statelessness — the writer changes the file system
only at the effective path (every other file is untouched), and a
subsequent read of any other path is unaffected by the call; the image
argument is a pure value the embedded call only reads. -/
theorem imwrite_frame_and_stateless
    (c : Codec) (fs : FS) (p : String) (img : Image)
    (params : Option (List Int)) (q : String) (flags : Int)
    (hq : q ≠ effectivePath p) :
    (imwrite_unicode c tofileReal fs p img params).2 q = fs q ∧
    imread_unicode c (imwrite_unicode c tofileReal fs p img params).2 q flags
      = imread_unicode c fs q flags := by
  have hframe : (imwrite_unicode c tofileReal fs p img params).2 q = fs q := by
    rw [imwrite_eq]
    by_cases he : (c.imencode (effectiveExt p) img (paramsOrEmpty params)).1
      <;> simp [he, tofileReal, hq]
  refine ⟨hframe, ?_⟩
  unfold imread_unicode fromfile
  rw [hframe]

/-- C9 witness: writing to "a.png" leaves "other.png" untouched and a
read of "other.png" is unchanged by the write. -/
theorem imwrite_frame_and_stateless_witness :
    "other.png" ≠ effectivePath "a.png" ∧
    ((imwrite_unicode codecSpy tofileReal emptyFS "a.png" imgZeros none).2
         "other.png" = emptyFS "other.png" ∧
     imread_unicode codecSpy
         (imwrite_unicode codecSpy tofileReal emptyFS "a.png" imgZeros none).2
         "other.png" IMREAD_COLOR
       = imread_unicode codecSpy emptyFS "other.png" IMREAD_COLOR) :=
  ⟨by decide,
   imwrite_frame_and_stateless codecSpy emptyFS "a.png" imgZeros none
     "other.png" IMREAD_COLOR (by decide)⟩

/-- C10: the path "/tmp/.config" splits to an empty extension (the dot is
a leading dot of the final component), so the writer treats it as
extensionless: it writes to "/tmp/.config.png", hands the encoder ".png"
(recorded by `codecSpy` as the bytes of ".png"), and creates nothing at
"/tmp/.config". -/
theorem imwrite_leading_dot_component_defaults_png :
    (splitext "/tmp/.config").2 = "" ∧
    effectivePath "/tmp/.config" = "/tmp/.config.png" ∧
    (imwrite_unicode codecSpy tofileReal emptyFS "/tmp/.config" imgZeros none).2
        "/tmp/.config.png" = some [46, 112, 110, 103] ∧
    (imwrite_unicode codecSpy tofileReal emptyFS "/tmp/.config" imgZeros none).2
        "/tmp/.config" = none := by
  refine ⟨by decide, by decide, ?_, ?_⟩ <;> decide

end DeepLiveCam
